import Mathlib

/-!
Shallow embedding of the tinyexr conan recipe
(`recipes/tinyexr/all/conanfile.py`) and proofs about it.

Modelling conventions:
- A file's content is a `List String` of its lines, without trailing
  newline characters (so the recipe's stripping of a trailing newline from
  a line is the identity in the model).
- A directory listing is an association list from file name to content.
- The `_header_only` instance attribute is an `Option Bool`: `none` models
  the attribute being unset, and `getattr` with default `False` is
  `Option.getD false`.
- Machine state touched by `package` is a pair of partial maps: files
  (path to content) and directories (path to existence flag).
-/

namespace TinyExrRecipe

/-- The domain of the `with_z` enumerated option: "zlib" or "miniz". -/
inductive ZImpl where
  | zlib
  | miniz
deriving DecidableEq, Repr

/-- Resolved values of the recipe's declared options. -/
structure Options where
  with_z : ZImpl
  with_piz : Bool
  with_zfp : Bool
  with_thread : Bool
  with_openmp : Bool
  shared : Bool
deriving DecidableEq, Repr

/-- Default option values declared by the recipe. -/
def defaultOptions : Options :=
  { with_z := ZImpl.miniz
    with_piz := true
    with_zfp := false
    with_thread := false
    with_openmp := false
    shared := false }

/-- The settings of a build configuration. `cppstd` is
`settings.compiler.cppstd`: `none` when no standard is configured, and
`some v` with the numeric part of the standard (98, 11, 14, 17, 20, 23)
when one is. -/
structure Settings where
  os : String
  arch : String
  compiler : String
  build_type : String
  cppstd : Option Nat
deriving DecidableEq, Repr

/-- Lookup of a file by name in a directory listing, mirroring
`os.path.exists` / `os.path.isfile` plus reading the content. -/
def lookupFile (files : List (String × List String)) (name : String) :
    Option (List String) :=
  match files with
  | [] => none
  | (n, c) :: rest => if n = name then some c else lookupFile rest name

/-- The whole state a recipe instance sees: resolved options, settings,
the acquired source tree (files at the source root), the build folder
contents (triples of containing directory, file name, content, as
enumerated by `os.walk`), the `_header_only` attribute, and `os.name` of
the host (the string "nt" on Windows). -/
structure RecipeState where
  opts : Options
  settings : Settings
  sourceFiles : List (String × List String)
  buildFiles : List (String × String × List String)
  headerOnly : Option Bool
  osName : String

/-- `getattr(self, "_header_only", False)`: the attribute value if set,
otherwise `False`. -/
def effHeaderOnly (st : RecipeState) : Bool :=
  st.headerOnly.getD false

/-- The spec's BuildMode variant. -/
inductive BuildMode where
  | headerOnly
  | compiled
deriving DecidableEq, Repr

/-- The detection performed by `source()`:
`not os.path.exists(os.path.join(self.source_folder, "tinyexr.cc"))`. -/
def detectHeaderOnly (tree : List (String × List String)) : Bool :=
  match lookupFile tree "tinyexr.cc" with
  | some _ => false
  | none => true

/-- The state change of `source()` after fetching: it stores the
header-only detection into the `_header_only` attribute. -/
def sourceOp (st : RecipeState) : RecipeState :=
  { st with headerOnly := some (detectHeaderOnly st.sourceFiles) }

/-- The BuildMode determined by a detection result. -/
def buildModeOfDetect (b : Bool) : BuildMode :=
  if b then BuildMode.headerOnly else BuildMode.compiled

/-- Error raised by `check_min_cppstd` via `ConanInvalidConfiguration`. -/
inductive ConanError where
  | invalidConfiguration (msg : String)
deriving DecidableEq, Repr

/-- Orders C++ standards the way conan's cppstd comparison does:
98 precedes 11, 14, 17, 20, 23. The rank maps the two-digit year 98 below
the post-2000 standards. -/
def cppstdRank (v : Nat) : Nat :=
  if v < 90 then v + 100 else v

/-- `check_min_cppstd(self, "11")` fails exactly when the configured
standard is below C++11 in the cppstd order. -/
def cppstdBelow (v minimum : Nat) : Bool :=
  cppstdRank v < cppstdRank minimum

/-- The `validate()` method: when `with_thread` is set and
`settings.compiler.get_safe("cppstd")` yields a configured standard,
run `check_min_cppstd(self, "11")`. -/
def validate (o : Options) (s : Settings) : Except ConanError Unit :=
  if o.with_thread then
    match s.cppstd with
    | some v =>
        if cppstdBelow v 11 then
          Except.error (ConanError.invalidConfiguration
            "Current cppstd does not support the minimum required C++11")
        else Except.ok ()
    | none => Except.ok ()
  else Except.ok ()

/-- The `requirements()` method: `miniz/3.0.2` when `with_z == "miniz"`,
otherwise `zlib/[>=1.2.11 <2]`; `zfp/1.0.0` when `with_zfp`. The list
order mirrors the order of the `self.requires` calls. -/
def requirements (o : Options) : List String :=
  (if o.with_z = ZImpl.miniz then ["miniz/3.0.2"] else ["zlib/[>=1.2.11 <2]"])
    ++ (if o.with_zfp then ["zfp/1.0.0"] else [])

/-- A filesystem effect performed by `package()`: `os.makedirs(path,
exist_ok=True)` or writing a file (by `save` or by `copy` of a single
matched file). -/
inductive FSAction where
  | mkdir (path : String)
  | write (path : String) (content : List String)
deriving DecidableEq, Repr

/-- The package output tree: a partial map from path to file content and
a predicate recording which directories were created. -/
structure PkgFS where
  files : String → Option (List String)
  dirs : String → Bool

/-- The empty package folder. -/
def emptyFS : PkgFS :=
  { files := fun _ => none, dirs := fun _ => false }

/-- Apply one filesystem effect. `mkdir` with `exist_ok=True` marks the
directory present; a write stores the content at the path, replacing any
previous content. -/
def applyAction (fs : PkgFS) : FSAction → PkgFS
  | FSAction.mkdir d =>
      { fs with dirs := fun x => if x = d then true else fs.dirs x }
  | FSAction.write p c =>
      { fs with files := fun x => if x = p then some c else fs.files x }

/-- Apply a sequence of filesystem effects in order. -/
def applyActions (fs : PkgFS) (acts : List FSAction) : PkgFS :=
  acts.foldl applyAction fs

/-- The content of the last write to path `p` in `acts`, if any. -/
def lastWrite (acts : List FSAction) (p : String) : Option (List String) :=
  match acts with
  | [] => none
  | a :: rest =>
    match lastWrite rest p with
    | some c => some c
    | none =>
      match a with
      | FSAction.write q c => if p = q then some c else none
      | FSAction.mkdir _ => none

/-- Whether `acts` contains a `mkdir` of directory `d`. -/
def hasMkdir (acts : List FSAction) (d : String) : Bool :=
  acts.any (fun a =>
    match a with
    | FSAction.mkdir q => d == q
    | FSAction.write _ _ => false)

theorem files_applyActions (acts : List FSAction) (fs : PkgFS) (p : String) :
    (applyActions fs acts).files p =
      match lastWrite acts p with
      | some c => some c
      | none => fs.files p := by
  induction acts generalizing fs with
  | nil => rfl
  | cons a rest ih =>
    show (applyActions (applyAction fs a) rest).files p = _
    rw [ih]
    cases h : lastWrite rest p with
    | some c => simp [lastWrite, h]
    | none =>
      cases a with
      | mkdir d => simp [lastWrite, h, applyAction]
      | write q c =>
        by_cases hq : p = q
        · subst hq
          simp [lastWrite, h, applyAction]
        · simp [lastWrite, h, applyAction, hq]

theorem dirs_applyActions (acts : List FSAction) (fs : PkgFS) (d : String) :
    (applyActions fs acts).dirs d = (hasMkdir acts d || fs.dirs d) := by
  induction acts generalizing fs with
  | nil => simp [applyActions, hasMkdir]
  | cons a rest ih =>
    show (applyActions (applyAction fs a) rest).dirs d = _
    rw [ih]
    cases a with
    | mkdir q =>
      by_cases hq : d = q
      · simp [hasMkdir, applyAction, hq]
      · have hq2 : (d == q) = false := by
          simpa using hq
        simp [hasMkdir, applyAction, hq, hq2, List.any_cons]
    | write q c => simp [hasMkdir, applyAction, List.any_cons]

/-- Replaying an identical effect sequence leaves the tree unchanged:
every path holds the last-written content either way, and every directory
created once is created again. -/
theorem applyActions_idem (acts : List FSAction) (fs : PkgFS) :
    applyActions (applyActions fs acts) acts = applyActions fs acts := by
  have hfiles : (applyActions (applyActions fs acts) acts).files =
      (applyActions fs acts).files := by
    funext p
    rw [files_applyActions, files_applyActions]
    cases lastWrite acts p <;> rfl
  have hdirs : (applyActions (applyActions fs acts) acts).dirs =
      (applyActions fs acts).dirs := by
    funext d
    rw [dirs_applyActions, dirs_applyActions]
    cases hasMkdir acts d <;> simp
  cases h1 : applyActions (applyActions fs acts) acts with
  | mk f1 d1 =>
    cases h2 : applyActions fs acts with
    | mk f2 d2 =>
      rw [h1, h2] at hfiles hdirs
      simp_all

/-- A write found by `lastWrite` is one of the actions. -/
theorem lastWrite_mem (acts : List FSAction) (p : String)
    (c : List String) (h : lastWrite acts p = some c) :
    FSAction.write p c ∈ acts := by
  induction acts with
  | nil => simp [lastWrite] at h
  | cons a rest ih =>
    cases hr : lastWrite rest p with
    | some c0 =>
      have heq : lastWrite (a :: rest) p = some c0 := by
        simp [lastWrite, hr]
      rw [heq] at h
      cases h
      exact List.mem_cons_of_mem _ (ih hr)
    | none =>
      cases a with
      | mkdir d =>
        have heq : lastWrite (FSAction.mkdir d :: rest) p = none := by
          simp [lastWrite, hr]
        rw [heq] at h
        simp at h
      | write q c0 =>
        by_cases hq : p = q
        · subst hq
          have heq : lastWrite (FSAction.write p c0 :: rest) p = some c0 := by
            simp [lastWrite, hr]
          rw [heq] at h
          cases h
          exact List.mem_cons_self _ _
        · have heq : lastWrite (FSAction.write q c0 :: rest) p = none := by
            simp [lastWrite, hr, hq]
          rw [heq] at h
          simp at h

/-- Python's `range(a, b)` as a list of natural numbers. -/
def pyRange (a b : Nat) : List Nat :=
  List.range' a (b - a)

/-- The `_extracted_license` property. When a top-level `LICENSE` exists
its content is returned; otherwise, when `tinyexr.h` exists, the lines
with indices in `range(min(0, len(content_lines)), min(40,
len(content_lines)))` are collected (each line's trailing newline is
stripped, the identity here since the model stores lines without
newlines); otherwise the content is empty. The model returns the list of
lines of the license text. -/
def extractedLicenseLines (src : List (String × List String)) :
    List String :=
  match lookupFile src "LICENSE" with
  | some content => content
  | none =>
    match lookupFile src "tinyexr.h" with
    | some contentLines =>
        (pyRange (min 0 contentLines.length)
            (min 40 contentLines.length)).map
          (fun i => contentLines.getD i "")
    | none => []

/-- File-name test of the library-extension filter in `package()`. -/
def libExt (fname : String) : Bool :=
  fname.endsWith ".lib" || fname.endsWith ".a" ||
    fname.endsWith ".so" || fname.endsWith ".dylib"

/-- File-name test of the Windows binary filter in `package()`. -/
def binExt (fname : String) : Bool :=
  fname.endsWith ".exe" || fname.endsWith ".dll"

/-- The ordered filesystem effects of `package()`: create `licenses` and
save the extracted license there; copy `tinyexr.h` from the source folder
into `include` when present; then, only when not header-only, create
`lib`, copy every build-folder file with a library extension into it,
create `bin`, and on Windows copy every `.exe`/`.dll` build-folder file
into it. -/
def packageActions (st : RecipeState) : List FSAction :=
  [FSAction.mkdir "licenses",
   FSAction.write "licenses/LICENSE" (extractedLicenseLines st.sourceFiles)]
  ++ (match lookupFile st.sourceFiles "tinyexr.h" with
      | some c => [FSAction.mkdir "include", FSAction.write "include/tinyexr.h" c]
      | none => [])
  ++ (if effHeaderOnly st then []
      else
        [FSAction.mkdir "lib"]
        ++ (st.buildFiles.filter (fun f => libExt f.2.1)).map
            (fun f => FSAction.write (String.append "lib/" f.2.1) f.2.2)
        ++ [FSAction.mkdir "bin"]
        ++ (st.buildFiles.filter
              (fun f => st.osName == "nt" && binExt f.2.1)).map
            (fun f => FSAction.write (String.append "bin/" f.2.1) f.2.2))

/-- The `package()` method as a transformer of the package folder. -/
def package (st : RecipeState) (fs : PkgFS) : PkgFS :=
  applyActions fs (packageActions st)

/-- Claim C2: build-mode determination is a pure function of the acquired
source tree's listing: the detected mode is HeaderOnly exactly when no
`tinyexr.cc` exists at the source root, Compiled otherwise, and repeating
the determination on the same tree yields the same result. -/
theorem source_buildMode_pure (st : RecipeState) :
    (buildModeOfDetect (detectHeaderOnly st.sourceFiles) = BuildMode.headerOnly
        ↔ lookupFile st.sourceFiles "tinyexr.cc" = none)
    ∧ (buildModeOfDetect (detectHeaderOnly st.sourceFiles) = BuildMode.compiled
        ↔ lookupFile st.sourceFiles "tinyexr.cc" ≠ none)
    ∧ (sourceOp (sourceOp st)).headerOnly = (sourceOp st).headerOnly := by
  refine ⟨?_, ?_, ?_⟩
  · cases h : lookupFile st.sourceFiles "tinyexr.cc" <;>
      simp [buildModeOfDetect, detectHeaderOnly, h]
  · cases h : lookupFile st.sourceFiles "tinyexr.cc" <;>
      simp [buildModeOfDetect, detectHeaderOnly, h]
  · rfl

/-- Claim C5: `validate` fails exactly when `with_thread` is enabled, a
C++ standard is configured, and that standard is below C++11; in
particular with `with_thread` enabled and no configured standard it
passes. -/
theorem validate_fails_iff (o : Options) (s : Settings) :
    ((validate o s).isOk = false ↔
        o.with_thread = true ∧ ∃ v, s.cppstd = some v ∧ cppstdBelow v 11 = true)
    ∧ (s.cppstd = none → validate o s = Except.ok ()) := by
  constructor
  · cases ht : o.with_thread
    · simp [validate, ht, Except.isOk, Except.toBool]
    · cases hc : s.cppstd with
      | none => simp [validate, ht, hc, Except.isOk, Except.toBool]
      | some v =>
        by_cases hb : cppstdBelow v 11 = true
        · simp [validate, ht, hc, hb, Except.isOk, Except.toBool]
        · simp only [Bool.not_eq_true] at hb
          simp [validate, ht, hc, hb, Except.isOk, Except.toBool]
  · intro hc
    cases ht : o.with_thread <;> simp [validate, ht, hc]

/-- Claim C6: the declared requirements are a pure function of the
options with no duplicates: exactly one of miniz/zlib according to
`with_z`, zfp exactly when `with_zfp`, and nothing else. -/
theorem requirements_spec (o : Options) :
    ("miniz/3.0.2" ∈ requirements o ↔ o.with_z = ZImpl.miniz)
    ∧ ("zlib/[>=1.2.11 <2]" ∈ requirements o ↔ o.with_z = ZImpl.zlib)
    ∧ ("zfp/1.0.0" ∈ requirements o ↔ o.with_zfp = true)
    ∧ (∀ r ∈ requirements o,
        r = "miniz/3.0.2" ∨ r = "zlib/[>=1.2.11 <2]" ∨ r = "zfp/1.0.0")
    ∧ (requirements o).Nodup := by
  cases hz : o.with_z <;> cases hf : o.with_zfp <;>
    simp [requirements, hz, hf]

/-- Claim C7: packaging is idempotent: with the whole input state fixed,
running `package` twice produces the same output tree as running it
once. -/
theorem package_idempotent (st : RecipeState) (fs : PkgFS) :
    package st (package st fs) = package st fs :=
  applyActions_idem (packageActions st) fs

/-- A concrete header-only run: default options, Linux settings, a source
tree holding only the header, an empty build folder, detection already
recorded as header-only. -/
def headerOnlySt : RecipeState :=
  { opts := defaultOptions
    settings :=
      { os := "Linux", arch := "x86_64", compiler := "gcc"
        build_type := "Release", cppstd := none }
    sourceFiles := [("tinyexr.h", ["// tinyexr v1", "// by Syoyo Fujita"])]
    buildFiles := []
    headerOnly := some true
    osName := "posix" }

/-- Claim C3 counterexample: at the concrete header-only run
`headerOnlySt` the package output has no `lib` directory and no `bin`
directory, and it contains the non-header file `licenses/LICENSE`; so the
claim that lib and bin exist (and that the output holds header files
only) fails. -/
theorem package_headerOnly_cex :
    (package headerOnlySt emptyFS).dirs "lib" = false
    ∧ (package headerOnlySt emptyFS).dirs "bin" = false
    ∧ (package headerOnlySt emptyFS).files "licenses/LICENSE" ≠ none := by
  refine ⟨by decide, by decide, by decide⟩

/-- Claim C3 (amended): for every run whose build mode was detected
header-only, the package output holds at most the extracted license at
`licenses/LICENSE` and the header at `include/tinyexr.h` (in particular
no lib or bin files), and the `lib` and `bin` directories are not
created. -/
theorem package_headerOnly_spec (st : RecipeState)
    (h : st.headerOnly = some true) :
    (∀ p c, (package st emptyFS).files p = some c →
        p = "licenses/LICENSE" ∨ p = "include/tinyexr.h")
    ∧ (package st emptyFS).dirs "lib" = false
    ∧ (package st emptyFS).dirs "bin" = false := by
  have hEff : effHeaderOnly st = true := by simp [effHeaderOnly, h]
  refine ⟨?_, ?_, ?_⟩
  · intro p c hpc
    rw [package, files_applyActions] at hpc
    have hlw : lastWrite (packageActions st) p = some c := by
      cases hl : lastWrite (packageActions st) p with
      | some c0 =>
        rw [hl] at hpc
        simpa using hpc
      | none =>
        rw [hl] at hpc
        simp [emptyFS] at hpc
    have hmem := lastWrite_mem _ _ _ hlw
    cases hl : lookupFile st.sourceFiles "tinyexr.h" with
    | none =>
      simp [packageActions, hEff, hl] at hmem
      tauto
    | some hc =>
      simp [packageActions, hEff, hl] at hmem
      tauto
  · rw [package, dirs_applyActions]
    cases hl : lookupFile st.sourceFiles "tinyexr.h" <;>
      simp [packageActions, hEff, hl, hasMkdir, emptyFS]
  · rw [package, dirs_applyActions]
    cases hl : lookupFile st.sourceFiles "tinyexr.h" <;>
      simp [packageActions, hEff, hl, hasMkdir, emptyFS]

/-- Witness for the amended claim C3 at the concrete header-only run. -/
theorem package_headerOnly_spec_witness :
    headerOnlySt.headerOnly = some true
    ∧ (package headerOnlySt emptyFS).dirs "lib" = false :=
  ⟨rfl, (package_headerOnly_spec headerOnlySt rfl).2.1⟩

/-- Mapping an indexed read over `range'` recovers a contiguous segment:
for indices `s, s+1, ..., s+k-1` all in bounds, the reads give
`(L.drop s).take k`. -/
theorem map_getD_range' (L : List String) (k s : Nat)
    (h : s + k ≤ L.length) :
    (List.range' s k).map (fun i => L.getD i "") = (L.drop s).take k := by
  induction k generalizing s with
  | zero => simp
  | succ k ih =>
    have hs : s < L.length := by omega
    rw [List.range'_succ, List.map_cons]
    have h2 : L.drop s = L.get ⟨s, hs⟩ :: L.drop (s + 1) := by
      rw [List.drop_eq_getElem_cons hs]
      simp
    rw [h2, List.take_succ_cons]
    have h1 : L.getD s "" = L.get ⟨s, hs⟩ := by
      rw [List.getD_eq_getElem _ _ hs]
      simp
    rw [h1, ih (s + 1) (by omega)]

/-- A concrete source tree with no top-level LICENSE and a two-line
header. -/
def srcFallback : List (String × List String) :=
  [("tinyexr.h", ["// Copyright 2014", "// Syoyo Fujita"])]

/-- Claim C1 counterexample: on a source tree where LICENSE is absent and
`tinyexr.h` is present with non-empty content, the fallback extracts the
header's lines, not empty content: the slice `range(min(0, n), min(40,
n))` starts at 0, not at an empty bound. -/
theorem extractedLicense_cex :
    lookupFile srcFallback "LICENSE" = none
    ∧ (lookupFile srcFallback "tinyexr.h").isSome = true
    ∧ extractedLicenseLines srcFallback ≠ [] := by
  refine ⟨by decide, by decide, by decide⟩

/-- Claim C1 (amended): when the top-level LICENSE is absent and
`tinyexr.h` is present with lines `L`, the fallback extracts the first
`min 40 (length L)` lines, i.e. `L.take 40`; hence it yields zero lines
exactly when the header itself is empty, not regardless of the header's
contents. -/
theorem extractedLicense_fallback_spec (src : List (String × List String))
    (L : List String)
    (hLic : lookupFile src "LICENSE" = none)
    (hHdr : lookupFile src "tinyexr.h" = some L) :
    extractedLicenseLines src = L.take 40
    ∧ (extractedLicenseLines src = [] ↔ L = []) := by
  have hmain : extractedLicenseLines src = L.take 40 := by
    have hb : (0 : Nat) + min 40 L.length ≤ L.length := by
      omega
    have hr := map_getD_range' L (min 40 L.length) 0 hb
    simp only [List.drop_zero] at hr
    have hmin : L.take (min 40 L.length) = L.take 40 := by
      rcases Nat.le_total 40 L.length with hle | hle
      · rw [Nat.min_eq_left hle]
      · rw [Nat.min_eq_right hle, List.take_length,
          List.take_of_length_le hle]
    simp only [extractedLicenseLines, hLic, hHdr, pyRange, Nat.zero_min,
      Nat.sub_zero]
    rw [hr, hmin]
  refine ⟨hmain, ?_⟩
  rw [hmain]
  constructor
  · intro ht
    cases L with
    | nil => rfl
    | cons a l => simp [List.take_succ_cons] at ht
  · intro hL
    rw [hL]
    rfl

/-- Witness for the amended claim C1 at the concrete fallback tree. -/
theorem extractedLicense_fallback_witness :
    extractedLicenseLines srcFallback =
      List.take 40 ["// Copyright 2014", "// Syoyo Fujita"] :=
  (extractedLicense_fallback_spec srcFallback
    ["// Copyright 2014", "// Syoyo Fujita"] (by decide) (by decide)).1

/-- The consumption metadata object `self.cpp_info`. -/
structure CppInfo where
  defines : List String
  libs : List String
  libdirs : List String
  bindirs : List String
  system_libs : List String
deriving DecidableEq, Repr

/-- The default `cpp_info` a recipe starts from: no defines, no libs, no
system libs, and the conventional `lib` and `bin` directories. -/
def defaultCppInfo : CppInfo :=
  { defines := []
    libs := []
    libdirs := ["lib"]
    bindirs := ["bin"]
    system_libs := [] }

/-- Renders a boolean option the way `package_info` does: the string "1"
when enabled, "0" otherwise. -/
def flag01 (b : Bool) : String :=
  if b then "1" else "0"

/-- The `package_info()` method: appends the five feature-flag defines in
order, then either empties `bindirs`/`libdirs` (header-only) or sets
`libs` to `["tinyexr"]`, then appends the `pthread` system library on
Linux or FreeBSD when `with_thread` is enabled. -/
def packageInfo (st : RecipeState) (c0 : CppInfo) : CppInfo :=
  let c1 := { c0 with defines := c0.defines ++
    [String.append "TINYEXR_USE_MINIZ=" (flag01 (st.opts.with_z = ZImpl.miniz))] }
  let c2 := { c1 with defines := c1.defines ++
    [String.append "TINYEXR_USE_PIZ=" (flag01 st.opts.with_piz)] }
  let c3 := { c2 with defines := c2.defines ++
    [String.append "TINYEXR_USE_ZFP=" (flag01 st.opts.with_zfp)] }
  let c4 := { c3 with defines := c3.defines ++
    [String.append "TINYEXR_USE_THREAD=" (flag01 st.opts.with_thread)] }
  let c5 := { c4 with defines := c4.defines ++
    [String.append "TINYEXR_USE_OPENMP=" (flag01 st.opts.with_openmp)] }
  let c6 :=
    if effHeaderOnly st then { c5 with bindirs := [], libdirs := [] }
    else { c5 with libs := ["tinyexr"] }
  if (st.settings.os = "Linux" ∨ st.settings.os = "FreeBSD")
      ∧ st.opts.with_thread = true then
    { c6 with system_libs := c6.system_libs ++ ["pthread"] }
  else c6

/-- What the `generate()` method produces when it does not return early:
the CMake toolchain variables, in order, and the CMakeDeps dependency
files. -/
structure GenerateOutput where
  toolchainVars : List (String × String)
  depsGenerated : Bool
deriving DecidableEq, Repr

/-- Renders a boolean option the way `generate` does: "ON" when enabled,
"OFF" otherwise. -/
def flagOnOff (b : Bool) : String :=
  if b then "ON" else "OFF"

/-- The `generate()` method: nothing when header-only (early return,
before any toolchain or dependency file is produced); otherwise the
toolchain variables in the order they are assigned, plus the generated
dependency files. -/
def generateOp (st : RecipeState) : Option GenerateOutput :=
  if effHeaderOnly st then none
  else
    some
      { toolchainVars :=
          [("TINYEXR_USE_MINIZ", flagOnOff (st.opts.with_z = ZImpl.miniz)),
           ("TINYEXR_USE_PIZ", flagOnOff st.opts.with_piz),
           ("TINYEXR_USE_ZFP", flagOnOff st.opts.with_zfp),
           ("TINYEXR_USE_THREAD", flagOnOff st.opts.with_thread),
           ("TINYEXR_USE_OPENMP", flagOnOff st.opts.with_openmp),
           ("TINYEXR_BUILD_SAMPLE", "OFF"),
           ("BUILD_SHARED_LIBS", flagOnOff st.opts.shared)]
        depsGenerated := true }

/-- What the `build()` method does: it always applies the conandata
patches, and it configures and runs the CMake build unless it returns
early for header-only. -/
structure BuildOutput where
  patchesApplied : Bool
  cmakeConfigured : Bool
  cmakeBuilt : Bool
deriving DecidableEq, Repr

/-- The `build()` method. -/
def buildOp (st : RecipeState) : BuildOutput :=
  if effHeaderOnly st then
    { patchesApplied := true, cmakeConfigured := false, cmakeBuilt := false }
  else
    { patchesApplied := true, cmakeConfigured := true, cmakeBuilt := true }

/-- The package identity computed by `package_id()`: the settings and
options recorded in `self.info`, or nothing after `self.info.clear()`. -/
def packageIdInfo (st : RecipeState) : Option (Settings × Options) :=
  if effHeaderOnly st then none
  else some (st.settings, st.opts)

/-- Claim C4: `package_info` emits exactly the five feature-flag defines,
each `=1` exactly when its option is enabled (`with_z = miniz` for
MINIZ), and the library list is empty when header-only and `["tinyexr"]`
otherwise. -/
theorem packageInfo_defines_libs (st : RecipeState) :
    ((packageInfo st defaultCppInfo).defines =
      [String.append "TINYEXR_USE_MINIZ=" (flag01 (st.opts.with_z = ZImpl.miniz)),
       String.append "TINYEXR_USE_PIZ=" (flag01 st.opts.with_piz),
       String.append "TINYEXR_USE_ZFP=" (flag01 st.opts.with_zfp),
       String.append "TINYEXR_USE_THREAD=" (flag01 st.opts.with_thread),
       String.append "TINYEXR_USE_OPENMP=" (flag01 st.opts.with_openmp)])
    ∧ (packageInfo st defaultCppInfo).defines.length = 5
    ∧ ((packageInfo st defaultCppInfo).libs =
        if effHeaderOnly st then [] else ["tinyexr"]) := by
  refine ⟨?_, ?_, ?_⟩ <;>
    · simp only [packageInfo, defaultCppInfo]
      split <;> split <;> simp

/-- Claim C8: when the build mode was detected header-only, `generate`
produces no toolchain configuration and no dependency files and `build`
invokes no CMake configure or build; conversely, whenever the configure
or build phase does run, the effective mode read by the recipe is
Compiled. -/
theorem toolchain_only_when_compiled (st : RecipeState) :
    (st.headerOnly = some true →
      generateOp st = none
      ∧ (buildOp st).cmakeConfigured = false
      ∧ (buildOp st).cmakeBuilt = false)
    ∧ ((buildOp st).cmakeConfigured = true ∨ generateOp st ≠ none →
        effHeaderOnly st = false) := by
  constructor
  · intro h
    have hEff : effHeaderOnly st = true := by simp [effHeaderOnly, h]
    refine ⟨?_, ?_, ?_⟩ <;> simp [generateOp, buildOp, hEff]
  · intro h
    cases hEff : effHeaderOnly st with
    | false => rfl
    | true =>
      rcases h with h | h
      · simp [buildOp, hEff] at h
      · simp [generateOp, hEff] at h

/-- Witness for claim C8 at the concrete header-only run. -/
theorem toolchain_only_when_compiled_witness :
    generateOp headerOnlySt = none :=
  ((toolchain_only_when_compiled headerOnlySt).1 rfl).1

/-- Claim C9: when the source tree was detected header-only the package
identity is cleared, so any two such runs (any settings, any options)
share the same identity; when the effective mode is not header-only the
identity keeps the settings and options unchanged. -/
theorem packageId_headerOnly_uniform (s1 s2 : RecipeState)
    (h1 : s1.headerOnly = some true) (h2 : s2.headerOnly = some true) :
    packageIdInfo s1 = packageIdInfo s2
    ∧ (∀ st : RecipeState, effHeaderOnly st = false →
        packageIdInfo st = some (st.settings, st.opts)) := by
  have e1 : effHeaderOnly s1 = true := by simp [effHeaderOnly, h1]
  have e2 : effHeaderOnly s2 = true := by simp [effHeaderOnly, h2]
  refine ⟨by simp [packageIdInfo, e1, e2], ?_⟩
  intro st hst
  simp [packageIdInfo, hst]

/-- A second concrete header-only run differing from `headerOnlySt` in
settings and options. -/
def headerOnlySt2 : RecipeState :=
  { opts :=
      { with_z := ZImpl.zlib, with_piz := false, with_zfp := true
        with_thread := true, with_openmp := true, shared := true }
    settings :=
      { os := "Windows", arch := "armv8", compiler := "msvc"
        build_type := "Debug", cppstd := some 17 }
    sourceFiles := [("tinyexr.h", ["// tinyexr v1", "// by Syoyo Fujita"])]
    buildFiles := []
    headerOnly := some true
    osName := "nt" }

/-- Witness for claim C9: two concrete header-only runs with different
settings and options have the same package identity. -/
theorem packageId_headerOnly_uniform_witness :
    packageIdInfo headerOnlySt = packageIdInfo headerOnlySt2 :=
  (packageId_headerOnly_uniform headerOnlySt headerOnlySt2 rfl rfl).1

/-- Claim C10: every operation consulting the build mode reads it with
`getattr` defaulting to `False`, so with the `_header_only` attribute
unset every operation behaves exactly as in Compiled mode: the identity
is not cleared, the toolchain and dependency files are generated, CMake
is configured and built, `package` acts exactly as with the attribute set
to `False` (creating and filling `lib` and `bin`), and the library list
is `["tinyexr"]`. -/
theorem getattr_unset_behaves_compiled (st : RecipeState)
    (h : st.headerOnly = none) :
    packageIdInfo st = some (st.settings, st.opts)
    ∧ generateOp st ≠ none
    ∧ (buildOp st).cmakeConfigured = true
    ∧ (buildOp st).cmakeBuilt = true
    ∧ (∀ fs, package st fs = package { st with headerOnly := some false } fs)
    ∧ (package st emptyFS).dirs "lib" = true
    ∧ (package st emptyFS).dirs "bin" = true
    ∧ (packageInfo st defaultCppInfo).libs = ["tinyexr"] := by
  have hEff : effHeaderOnly st = false := by simp [effHeaderOnly, h]
  have hEff2 : effHeaderOnly { st with headerOnly := some false } = false := by
    simp [effHeaderOnly]
  refine ⟨?_, ?_, ?_, ?_, ?_, ?_, ?_, ?_⟩
  · simp [packageIdInfo, hEff]
  · simp [generateOp, hEff]
  · simp [buildOp, hEff]
  · simp [buildOp, hEff]
  · intro fs
    simp [package, packageActions, hEff, hEff2]
  · rw [package, dirs_applyActions]
    cases hl : lookupFile st.sourceFiles "tinyexr.h" <;>
      simp [packageActions, hEff, hl, hasMkdir, List.any_append]
  · rw [package, dirs_applyActions]
    cases hl : lookupFile st.sourceFiles "tinyexr.h" <;>
      simp [packageActions, hEff, hl, hasMkdir, List.any_append]
  · simp only [packageInfo, defaultCppInfo, hEff]
    split <;> simp

/-- A concrete run with the `_header_only` attribute unset. -/
def unsetSt : RecipeState :=
  { opts := defaultOptions
    settings :=
      { os := "Linux", arch := "x86_64", compiler := "gcc"
        build_type := "Release", cppstd := none }
    sourceFiles := [("tinyexr.h", ["// tinyexr v1"])]
    buildFiles := [("build", "libtinyexr.a", ["binary"])]
    headerOnly := none
    osName := "posix" }

/-- Witness for claim C10 at a concrete run with the attribute unset. -/
theorem getattr_unset_behaves_compiled_witness :
    (buildOp unsetSt).cmakeBuilt = true
    ∧ (package unsetSt emptyFS).dirs "lib" = true :=
  ⟨(getattr_unset_behaves_compiled unsetSt rfl).2.2.2.1,
   (getattr_unset_behaves_compiled unsetSt rfl).2.2.2.2.2.1⟩

/-- Witness for claim C2 at the concrete header-only run: repeating the
determination yields the same recorded mode. -/
theorem source_buildMode_pure_witness :
    (sourceOp (sourceOp headerOnlySt)).headerOnly =
      (sourceOp headerOnlySt).headerOnly :=
  (source_buildMode_pure headerOnlySt).2.2

/-- Witness for claim C4 at a concrete compiled run: exactly five defines
and the single library name. -/
theorem packageInfo_defines_libs_witness :
    (packageInfo unsetSt defaultCppInfo).defines.length = 5
    ∧ (packageInfo unsetSt defaultCppInfo).libs = ["tinyexr"] :=
  ⟨(packageInfo_defines_libs unsetSt).2.1,
   (packageInfo_defines_libs unsetSt).2.2⟩

/-- Witness for claim C5: with threading enabled and cppstd configured to
98, validation fails; the hypotheses of the characterization are
discharged at this concrete configuration. -/
theorem validate_fails_iff_witness :
    (validate { defaultOptions with with_thread := true }
        { os := "Linux", arch := "x86_64", compiler := "gcc"
          build_type := "Release", cppstd := some 98 }).isOk = false :=
  (validate_fails_iff
      { defaultOptions with with_thread := true }
      { os := "Linux", arch := "x86_64", compiler := "gcc"
        build_type := "Release", cppstd := some 98 }).1.mpr
    ⟨rfl, 98, rfl, by decide⟩

/-- Witness for claim C6 at the default options: miniz is required. -/
theorem requirements_spec_witness :
    "miniz/3.0.2" ∈ requirements defaultOptions :=
  (requirements_spec defaultOptions).1.mpr rfl

/-- Witness for claim C7 at a concrete run: repackaging reproduces the
same tree. -/
theorem package_idempotent_witness :
    package unsetSt (package unsetSt emptyFS) = package unsetSt emptyFS :=
  package_idempotent unsetSt emptyFS

end TinyExrRecipe
